import Mathlib

/-!
Shallow embedding of the `alejoas1981/player` universal-player library
(`src/player.js`, `src/core/*.js`, `src/media/VideoSource.js`) and proofs
about its specification claims.

Scalar JS numbers are modelled as rationals (`ℚ`); JS number truthiness
(`0` falsy, nonzero truthy) is modelled as `≠ 0`.  Strings are Lean
`String`s; JS object identity is modelled with explicit allocation ids.
-/

namespace Player

/-! ## PlayerInstance volume / mute state (`src/player.js`)

`PlayerInstance.state` holds `volume`, `muted` (among other fields).
`setVolume` and `toggleMute` are embedded field-for-field from
`src/player.js` lines 236–246:

```js
setVolume(volume) {
    this.mediaSource.setVolume(volume);
    this.state.volume = volume;
    this.state.muted = volume === 0;
}
toggleMute() {
    const newMuted = !this.state.muted;
    this.mediaSource.setMuted(newMuted);
    this.state.muted = newMuted;
}
```
-/

structure VolState where
  volume : ℚ
  muted : Bool
  deriving DecidableEq, Repr

/-- Method `PlayerInstance.setVolume` restricted to the `state` fields it writes:
`state.volume = volume; state.muted = (volume === 0)`. -/
def setVolume (v : ℚ) (s : VolState) : VolState :=
  { s with volume := v, muted := decide (v = 0) }

/-- Method `PlayerInstance.toggleMute` restricted to the `state` fields it writes:
`state.muted = !state.muted`. -/
def toggleMute (s : VolState) : VolState :=
  { s with muted := !s.muted }

/-! ## PlayerInstance playing flag (`src/player.js`)

Operations that touch `state.playing`:
* `play()` — awaits `mediaSource.play()`; on success sets
  `state.playing = true` directly (line 217); on rejection the write is
  skipped (caught in the `catch`).
* `pause()` — sets `state.playing = false` directly (line 227).
* `handlePlay` / `handlePause` / `handleEnded` — MediaSource event
  handlers setting `state.playing` to `true` / `false` / `false`
  (lines 278–300).
-/

inductive PlayOp where
  /-- the public `play()` method; `ok` records whether the awaited
  `mediaSource.play()` promise resolved (on rejection the state write is
  skipped by the `catch`). -/
  | mPlay (ok : Bool)
  /-- the public `pause()` method. -/
  | mPause
  /-- the MediaSource `play` event (handled by `handlePlay`). -/
  | evPlay
  /-- the MediaSource `pause` event (handled by `handlePause`). -/
  | evPause
  /-- the MediaSource `ended` event (handled by `handleEnded`). -/
  | evEnded
  deriving DecidableEq, Repr

/-- Effect of one operation on `state.playing`, read off the bodies of
`play`, `pause`, `handlePlay`, `handlePause`, `handleEnded`. -/
def stepPlaying (playing : Bool) : PlayOp → Bool
  | .mPlay ok => if ok then true else playing
  | .mPause => false
  | .evPlay => true
  | .evPause => false
  | .evEnded => false

/-- Value of `state.playing` after a trace of operations, starting from the
constructor's initial `playing: false`. -/
def playingAfter (trace : List PlayOp) : Bool :=
  trace.foldl stepPlaying false

/-- Whether an operation is a MediaSource event among `play`/`pause`/`ended`. -/
def isMediaEvent : PlayOp → Bool
  | .evPlay | .evPause | .evEnded => true
  | _ => false

/-- The most recent MediaSource event (among `play`/`pause`/`ended`) of a
trace was `play`. -/
def lastMediaEventIsPlay (trace : List PlayOp) : Bool :=
  trace.foldl (fun acc op =>
    match op with
    | .evPlay => true
    | .evPause => false
    | .evEnded => false
    | _ => acc) false

/-- Whether an operation writes `state.playing` at all (a rejected
`play()` does not). -/
def writesPlaying : PlayOp → Bool
  | .mPlay ok => ok
  | _ => true

/-- Whether an operation, when it writes, writes `true`. -/
def writesTrue : PlayOp → Bool
  | .mPlay ok => ok
  | .evPlay => true
  | _ => false

/-- The most recent operation of the trace that writes `state.playing`,
if any. -/
def lastWriter (trace : List PlayOp) : Option PlayOp :=
  trace.foldl (fun acc op => if writesPlaying op then some op else acc) none

/-! ## MediaFactory (`src/core/MediaFactory.js`)

`detectMediaType(url, config)`:

```js
if (config.priority) { return config.priority; }
const urlLower = url.toLowerCase();
if (urlLower.includes('.m3u8') || urlLower.includes('hls')) return 'hls';
if (urlLower.includes('.mpd') || urlLower.includes('dash')) return 'dash';
if (urlLower.match(/\.(mp3|wav|aac|ogg)(\?|$)/)) return 'audio';
if (urlLower.match(/\.(mp4|webm|flv|avi|mov)(\?|$)/)) return 'video';
return 'video';
```

`String.prototype.toLowerCase` is modelled on ASCII letters (URLs used by
the factory match case-insensitively only through this lowering).  JS
truthiness of `config.priority` (a string): empty string is falsy.
-/

/-- ASCII `toLowerCase`, character by character. -/
def jsToLower (s : String) : String :=
  String.mk (s.data.map Char.toLower)

/-- Test whether `pat` occurs as a contiguous sublist of `l` (scan every suffix). -/
def listInfix (pat : List Char) : List Char → Bool
  | [] => pat.isPrefixOf []
  | c :: rest => pat.isPrefixOf (c :: rest) || listInfix pat rest

/-- JS `String.prototype.includes`: `pat` occurs as a contiguous substring. -/
def jsIncludes (s pat : String) : Bool :=
  listInfix pat.data s.data

/-- One position of the regex `\.(e1|e2|...)(\?|$)`: the character list
starts with `'.' ++ ext` followed by `'?'` or the end of the string. -/
def extMatchHere (exts : List (List Char)) (l : List Char) : Bool :=
  exts.any (fun e =>
    (('.' :: e).isPrefixOf l) &&
      (match l.drop (e.length + 1) with
       | [] => true
       | c :: _ => c = '?'))

/-- JS `urlLower.match(/\.(…)(\?|$)/) !== null`: the pattern occurs at some
position of the string. -/
def extMatch (exts : List (List Char)) : List Char → Bool
  | [] => extMatchHere exts []
  | c :: rest => extMatchHere exts (c :: rest) || extMatch exts rest

/-- Audio extensions of the factory's audio regex. -/
def audioExts : List (List Char) :=
  [['m','p','3'], ['w','a','v'], ['a','a','c'], ['o','g','g']]

/-- Video extensions of the factory's video regex. -/
def videoExts : List (List Char) :=
  [['m','p','4'], ['w','e','b','m'], ['f','l','v'], ['a','v','i'], ['m','o','v']]

/-- Method `MediaFactory.detectMediaType(url, config)`; `priority` is
`config.priority` with JS string truthiness (`""` falsy). -/
def detectMediaType (url : String) (priority : String) : String :=
  if priority ≠ "" then priority
  else
    let urlLower := jsToLower url
    if jsIncludes urlLower ".m3u8" || jsIncludes urlLower "hls" then "hls"
    else if jsIncludes urlLower ".mpd" || jsIncludes urlLower "dash" then "dash"
    else if extMatch audioExts urlLower.data then "audio"
    else if extMatch videoExts urlLower.data then "video"
    else "video"

/-- The type selected by `MediaFactory.createMediaSource({url, type, config})`:
`type || this.detectMediaType(url, config)` with JS string truthiness. -/
def createMediaSourceType (url : String) (type : String) (priority : String) : String :=
  if type ≠ "" then type else detectMediaType url priority

/-- The registered source types of `MediaFactory.sourceTypes`. -/
def registeredSourceTypes : List String :=
  ["video", "audio", "hls", "mp4", "dash"]

/-! ## ConfigManager (`src/core/ConfigManager.js`)

JS configuration values are modelled by `Value`: primitives (null,
booleans, numbers, strings, arrays — `isObject` in the source excludes
arrays, so arrays merge like primitives) and objects as association
lists in key-insertion order.
-/

/-- An element of a JS array literal in the default configuration
(the arrays there hold only numbers and strings, or are empty). -/
inductive APrim where
  | num (q : ℚ)
  | str (s : String)
  deriving DecidableEq, Repr

/-- A JS primitive (for merging purposes: anything `isObject` rejects,
arrays included). -/
inductive Prim where
  | null
  | bool (b : Bool)
  | num (q : ℚ)
  | str (s : String)
  | arr (elems : List APrim)
  deriving DecidableEq, Repr

/-- A JS configuration value: primitive or object (ordered key/value list). -/
inductive Value where
  | prim (p : Prim)
  | obj (fields : List (String × Value))

/-- Predicate `ConfigManager.isObject(item)`: truthy, `typeof === 'object'`, not an
array.  On `Value` this is exactly being an `obj`. -/
def isObjB : Value → Bool
  | .obj _ => true
  | .prim _ => false

/-- First binding of key `k` in an object's field list (JS property read). -/
def lookupKey (fields : List (String × Value)) (k : String) : Option Value :=
  match fields with
  | [] => none
  | (k', v) :: rest => if k' = k then some v else lookupKey rest k

mutual

/-- Method `ConfigManager.deepMerge(target, source)`.  `{...target}` keeps the
target's keys in order; each key of `source` overwrites (recursively when
both sides are objects) or is appended if new.  On non-objects the source
wins, as in the only call sites (both arguments objects) extended by the
`for … in`/spread semantics. -/
def deepMerge : Value → Value → Value
  | .obj t, .obj s =>
      .obj (mergeEntries s t ++ s.filter (fun q => (lookupKey t q.1).isNone))
  | _, u => u

/-- The `{...target}` keys updated by `result[key] = …` for keys present in
both: `isObject(source[key]) && isObject(result[key])` recurses, else the
source value replaces. -/
def mergeEntries (s : List (String × Value)) : List (String × Value) → List (String × Value)
  | [] => []
  | (k, tv) :: rest =>
      (k, match lookupKey s k with
          | none => tv
          | some sv => if isObjB sv && isObjB tv then deepMerge tv sv else sv)
        :: mergeEntries s rest

end

/-- Read a nested key path (`cfg.a.b.c`) out of a value. -/
def lookupPath : Value → List String → Option Value
  | v, [] => some v
  | .obj fs, k :: p =>
      match lookupKey fs k with
      | some v => lookupPath v p
      | none => none
  | .prim _, _ :: _ => none

/-- The user value never mentions key path `p`: walking `p`, at some level
the user value is an object missing the key (all earlier levels being
objects containing the key). -/
def absentIn : Value → List String → Prop
  | _, [] => False
  | .obj fs, k :: p =>
      lookupKey fs k = none ∨
        (∃ v, lookupKey fs k = some v ∧ isObjB v = true ∧ absentIn v p)
  | .prim _, _ :: _ => False

/-- Literal `0.8` as a raw reduced fraction (kernel-reducible, unlike `4/5`). -/
def qPoint8 : ℚ := ⟨4, 5, by decide, by decide⟩

/-- Literal `0.25` as a raw reduced fraction. -/
def qPoint25 : ℚ := ⟨1, 4, by decide, by decide⟩

/-- Literal `0.5` as a raw reduced fraction. -/
def qPoint5 : ℚ := ⟨1, 2, by decide, by decide⟩

/-- Literal `0.75` as a raw reduced fraction. -/
def qPoint75 : ℚ := ⟨3, 4, by decide, by decide⟩

/-- Literal `1.25` as a raw reduced fraction. -/
def qPoint125 : ℚ := ⟨5, 4, by decide, by decide⟩

/-- Literal `1.5` as a raw reduced fraction. -/
def qPoint15 : ℚ := ⟨3, 2, by decide, by decide⟩

/-- Literal `1.75` as a raw reduced fraction. -/
def qPoint175 : ℚ := ⟨7, 4, by decide, by decide⟩

theorem qPoint8_eq : qPoint8 = 4 / 5 := by
  rw [qPoint8, Rat.mk'_eq_divInt, Rat.divInt_eq_div]; norm_num

/-- Shorthand for embedding a JS string literal. -/
def vstr (s : String) : Value := .prim (.str s)

/-- Shorthand for embedding a JS number literal. -/
def vnum (q : ℚ) : Value := .prim (.num q)

/-- Shorthand for embedding a JS boolean literal. -/
def vbool (b : Bool) : Value := .prim (.bool b)

/-- Shorthand for embedding JS `null`. -/
def vnull : Value := .prim .null

/-- Shorthand for embedding a JS array literal. -/
def varr (l : List APrim) : Value := .prim (.arr l)

/-- Object `ConfigManager.defaultConfig` (`src/core/ConfigManager.js`
lines 6–128), field for field in source order. -/
def defaultConfig : Value := .obj
  [ ("videoUrl", vstr ""),
    ("poster", vstr ""),
    ("autoplay", vbool false),
    ("startOffset", vnum 0),
    ("vertical", vbool false),
    ("locale", vstr "en"),
    ("priority", vstr "hls"),
    ("container", vnull),
    ("features", .obj
      [ ("speed", vbool true), ("nextVideo", vbool true), ("volume", vbool true),
        ("pip", vbool true), ("chromecast", vbool false),
        ("qualityInControlBar", vbool true), ("topBar", vbool true),
        ("share", vbool false), ("oneHand", vbool false), ("cinema", vbool true),
        ("ccVisible", vbool true) ]),
    ("hlsConfig", .obj
      [ ("maxBufferLength", vnum 30), ("maxInitialBufferLength", vnum 6),
        ("prebufferGoal", vnum 3), ("enableWorker", vbool true),
        ("lowLatencyMode", vbool false) ]),
    ("hotspots", varr []),
    ("menu", .obj
      [ ("related", varr []), ("showOnPause", vbool true), ("slideout", vbool false) ]),
    ("theme", .obj
      [ ("customColor", vstr "#FF6B00"), ("customLogo", vstr ""),
        ("themeCode", vstr "default") ]),
    ("pip", .obj
      [ ("enabled", vbool true), ("position", vstr "bottom-right"),
        ("size", .obj [("width", vnum 320), ("height", vnum 180)]) ]),
    ("eventTracking", .obj
      [ ("enabled", vbool false), ("cdn", vstr "unknown"), ("isp", vstr "unknown"),
        ("geo", vstr "unknown"), ("videoId", vstr ""),
        ("playerSource", vstr "universal-player"),
        ("viewedThreshold", vnum qPoint8), ("trackingUrl", vstr "") ]),
    ("nextVideo", .obj
      [ ("enabled", vbool true), ("url", vstr ""), ("title", vstr ""),
        ("poster", vstr ""), ("countdown", vnum 10) ]),
    ("adRolls", .obj
      [ ("preRoll", vnull), ("postRoll", vnull), ("pauseRoll", vnull) ]),
    ("isVr", vbool false),
    ("vrProps", .obj []),
    ("ui", .obj
      [ ("hideControlsTimeout", vnum 3000), ("showThumbnails", vbool true),
        ("showDuration", vbool true), ("showCurrentTime", vbool true),
        ("controlsAlwaysVisible", vbool false) ]),
    ("quality", .obj
      [ ("default", vstr "auto"),
        ("levels", varr [.str "auto", .str "1080p", .str "720p", .str "480p",
          .str "360p", .str "240p"]) ]),
    ("speed", .obj
      [ ("default", vnum 1),
        ("options", varr [.num qPoint25, .num qPoint5, .num qPoint75, .num 1,
          .num qPoint125, .num qPoint15, .num qPoint175, .num 2]) ]),
    ("volume", vnum 1),
    ("muted", vbool false),
    ("subtitles", .obj
      [ ("enabled", vbool false), ("tracks", varr []),
        ("defaultLanguage", vstr "en") ]) ]

/-- Method `ConfigManager.createConfig(userConfig)`:
`deepMerge(this.defaultConfig, userConfig)`. -/
def createConfig (userConfig : Value) : Value :=
  deepMerge defaultConfig userConfig

/-! ## ConfigManager.validateConfig and UniversalPlayer.init

`validateConfig(config)` (`src/core/ConfigManager.js` lines 176–196)
collects error strings and throws one error joining all of them.  The
fields it reads are modelled as a flat record; the JS truthiness guards
(`!config.videoUrl`, `config.startOffset && …`, `config.volume && …`) are
kept (`""`/`0` falsy).  `Number.isFinite` is vacuously true on `ℚ`.

`UniversalPlayer.init(container, config)` (`src/player.js` lines 31–59)
resolves the container, builds `createConfig(config)` and constructs the
instance.  It never invokes `validateConfig`.
-/

structure ValCfg where
  videoUrl : String
  startOffset : ℚ
  volume : ℚ
  deriving DecidableEq, Repr

/-- The error list accumulated by `ConfigManager.validateConfig`. -/
def validationErrors (c : ValCfg) : List String :=
  (if c.videoUrl = "" then ["videoUrl is required"] else []) ++
  (if c.startOffset ≠ 0 ∧ c.startOffset < 0 then ["startOffset must be a positive number"] else []) ++
  (if c.volume ≠ 0 ∧ (c.volume < 0 ∨ c.volume > 1) then ["volume must be between 0 and 1"] else [])

/-- Method `ConfigManager.validateConfig`: throws (models as `Except.error`) the
joined message when any violation was collected, otherwise returns the
config. -/
def validateConfig (c : ValCfg) : Except String ValCfg :=
  if validationErrors c ≠ [] then
    .error ("Configuration validation failed: " ++ String.intercalate ", " (validationErrors c))
  else
    .ok c

/-- A configuration is invalid in the sense of the validation rules. -/
def invalidCfg (c : ValCfg) : Prop :=
  c.videoUrl = "" ∨ c.startOffset < 0 ∨ c.volume < 0 ∨ c.volume > 1

instance : DecidablePred invalidCfg := fun c => by
  unfold invalidCfg; infer_instance

/-- A user configuration restricted to the validated fields (`none` =
field not supplied, so the default survives the merge). -/
structure UserCfg where
  videoUrl : Option String
  startOffset : Option ℚ
  volume : Option ℚ
  deriving DecidableEq, Repr

/-- The validated fields of `createConfig(user)`: user value if supplied,
else the default (`videoUrl: ''`, `startOffset: 0`, `volume: 1`). -/
def mergedValCfg (u : UserCfg) : ValCfg :=
  { videoUrl := u.videoUrl.getD ""
    startOffset := u.startOffset.getD 0
    volume := u.volume.getD 1 }

/-- Method `UniversalPlayer.init(container, config)` restricted to its
config-handling path: throws only when the container is missing, then
builds the merged config and constructs the `PlayerInstance` — it never
calls `validateConfig`. -/
def universalPlayerInit (containerFound : Bool) (u : UserCfg) : Except String ValCfg :=
  if !containerFound then .error "Container not found"
  else .ok (mergedValCfg u)

/-! ## AnalyticsManager (`src/core/AnalyticsManager.js`)

### Send queue (lines 180–221)

One iteration of `processTrackingQueue` with a non-empty queue splices
the first 10 events off the queue and awaits `sendEvents(batch)`.  The
outcome of the `fetch` is one of: resolved ok, resolved non-ok
(`!response.ok` — only `console.warn`), or rejected (the `catch` —
`this.trackingQueue.unshift(...events)`).  With an empty `trackingUrl`,
`sendEvents` returns before fetching.
-/

inductive SendOutcome where
  /-- Outcome: `fetch` resolved with `response.ok`. -/
  | ok
  /-- Outcome: `fetch` resolved but `!response.ok` (HTTP error status). -/
  | httpErr (status : Nat)
  /-- Outcome: `fetch` rejected (network error): the `catch` block runs. -/
  | netErr
  deriving DecidableEq, Repr

/-- Method `AnalyticsManager.sendEvents(events)` effect on `trackingQueue`
(which at call time no longer holds `events`). -/
def sendEvents (trackingUrl : String) (outcome : SendOutcome)
    (events queue : List α) : List α :=
  if trackingUrl = "" then queue
  else
    match outcome with
    | .netErr => events ++ queue
    | .ok => queue
    | .httpErr _ => queue

/-- One flush cycle of `processTrackingQueue`: splice a batch of at most
10 events and send it. -/
def processBatch (trackingUrl : String) (outcome : SendOutcome)
    (queue : List α) : List α :=
  if queue.isEmpty then queue
  else sendEvents trackingUrl outcome (queue.take 10) (queue.drop 10)

/-! ### Viewed threshold (lines 78–101)

`trackProgress(playerId, currentTime, duration)`.  The per-player flag
`viewedThresholds.has(playerId)` and `session.maxProgress` are the state;
`config.enabled`, the session's existence and
`config.viewedThreshold` are fixed per session.  `!duration` is JS number
falsiness (`0`).
-/

structure ProgressState where
  viewed : Bool
  maxProgress : ℚ
  deriving DecidableEq, Repr

/-- Method `AnalyticsManager.trackProgress`; the returned `Bool` records whether
`viewed_threshold_reached` was tracked by this call. -/
def trackProgress (enabled hasSession : Bool) (threshold : ℚ)
    (currentTime duration : ℚ) (s : ProgressState) : ProgressState × Bool :=
  if !enabled || duration = 0 then (s, false)
  else if !hasSession then (s, false)
  else
    let progress := currentTime / duration
    let s' := { s with maxProgress := max s.maxProgress progress }
    if progress ≥ threshold ∧ !s.viewed then
      ({ s' with viewed := true }, true)
    else
      (s', false)

/-- Run a sequence of `trackProgress` calls, counting how many of them
tracked `viewed_threshold_reached`. -/
def runProgress (enabled hasSession : Bool) (threshold : ℚ)
    (calls : List (ℚ × ℚ)) (s : ProgressState) : ProgressState × Nat :=
  match calls with
  | [] => (s, 0)
  | (ct, dur) :: rest =>
      let (s', fired) := trackProgress enabled hasSession threshold ct dur s
      let (s'', n) := runProgress enabled hasSession threshold rest s'
      (s'', (if fired then 1 else 0) + n)

/-- The fresh per-session progress state created by `init`
(`maxProgress: 0`, no `viewedThresholds` entry). -/
def freshProgress : ProgressState := ⟨false, 0⟩

/-! ## EventManager (`src/core/EventManager.js`)

`events` and `onceEvents` are `Map`s from event name to an array of
`{callback, context}` records; modelled as association lists in key
insertion order (JS `Map` iteration/identity is keyed, so only per-key
lists matter here).  A callback is opaque: an id plus a flag saying
whether invoking it throws.  `emit` walks the regular listeners with
`forEach`, each call wrapped in `try/catch` (a throw is logged and walk
continues), then the once listeners likewise, then deletes the once
entry.
-/

structure Listener where
  id : Nat
  throws : Bool
  deriving DecidableEq, Repr

/-- An `events`/`onceEvents` map: event name to listener array. -/
def ListenerMap := List (String × List Listener)

/-- Operation `Map.get` for a listener map. -/
def getListeners (m : ListenerMap) (name : String) : Option (List Listener) :=
  match m with
  | [] => none
  | (k, ls) :: rest => if k = name then some ls else getListeners rest name

/-- Operation `Map.set`-then-`push` as performed by `on`/`once`: create the array
when absent (appending a new key), push the listener when present. -/
def addListener (m : ListenerMap) (name : String) (l : Listener) : ListenerMap :=
  match m with
  | [] => [(name, [l])]
  | (k, ls) :: rest =>
      if k = name then (k, ls ++ [l]) :: rest
      else (k, ls) :: addListener rest name l

/-- Operation `Map.delete`. -/
def deleteKey (m : ListenerMap) (name : String) : ListenerMap :=
  match m with
  | [] => []
  | (k, ls) :: rest => if k = name then rest else (k, ls) :: deleteKey rest name

/-- State of an `EventManager`: the two maps. -/
structure EvState where
  events : ListenerMap
  onceEvents : ListenerMap

/-- Method `EventManager.on`. -/
def evOn (name : String) (l : Listener) (st : EvState) : EvState :=
  { st with events := addListener st.events name l }

/-- Method `EventManager.once`. -/
def evOnce (name : String) (l : Listener) (st : EvState) : EvState :=
  { st with onceEvents := addListener st.onceEvents name l }

/-- Method `EventManager.emit(name)`: returns the ordered invocation log — one
entry `(id, threw)` per callback call, every call's exception being
caught inside `emit` — and the state afterwards (once listeners for
`name` removed).  `emit` itself never propagates an exception, which the
model reflects by being a total function. -/
def evEmit (name : String) (st : EvState) : List (Nat × Bool) × EvState :=
  let regular := (getListeners st.events name).getD []
  let onces := (getListeners st.onceEvents name).getD []
  (regular.map (fun l => (l.id, l.throws)) ++ onces.map (fun l => (l.id, l.throws)),
    { st with onceEvents := deleteKey st.onceEvents name })

/-- A subscription action: `on` (false) or `once` (true), with event name
and listener. -/
def Subscription := Bool × String × Listener

/-- Apply a sequence of `on`/`once` subscriptions, oldest first. -/
def applySubs (subs : List Subscription) (st : EvState) : EvState :=
  match subs with
  | [] => st
  | (isOnce, name, l) :: rest =>
      applySubs rest (if isOnce then evOnce name l st else evOn name l st)

/-- The constructor's empty state. -/
def evEmpty : EvState := ⟨[], []⟩

/-! ## VideoSource (`src/media/VideoSource.js`, provided as
`src/unnamed/part_002`) and PlayerInstance media switching

`VideoSource` holds `url`, `videoElement`, `isLoaded`.  The DOM element is
modelled by `Option VElem`; `allocId` is a model artifact standing for JS
object identity of the `VideoSource` itself, so that "destroys and
creates a new MediaSource" is expressible.
-/

structure VElem where
  src : String
  volume : ℚ
  muted : Bool
  deriving DecidableEq, Repr

structure VSource where
  allocId : Nat
  url : String
  videoElement : Option VElem
  isLoaded : Bool
  deriving DecidableEq, Repr

/-- Method `VideoSource.loadUrl(url)`: `this.url = url;` and, when a video
element is present, `this.videoElement.src = url;`.  The same `VideoSource`
object (same `allocId`) is kept; nothing is destroyed or re-created. -/
def loadUrl (u : String) (s : VSource) : VSource :=
  { s with
    url := u
    videoElement := s.videoElement.map (fun e => { e with src := u }) }

/-- The clamped volume assigned by `VideoSource.setVolume`:
`Math.max(0, Math.min(1, volume))`. -/
def clampVolume (v : ℚ) : ℚ := max 0 (min 1 v)

/-- The media element's `volume` IDL setter: out-of-range values raise
`IndexSizeError`; in-range values are stored. -/
def elemSetVolume (v : ℚ) (e : VElem) : Except String VElem :=
  if 0 ≤ v ∧ v ≤ 1 then .ok { e with volume := v }
  else .error "IndexSizeError"

/-- Method `VideoSource.setVolume(volume)`: no-op without a video element, else
assigns `Math.max(0, Math.min(1, volume))` to the element's volume. -/
def vsSetVolume (v : ℚ) (s : VSource) : Except String VSource :=
  match s.videoElement with
  | none => .ok s
  | some e => (elemSetVolume (clampVolume v) e).map (fun e' => { s with videoElement := some e' })

/-- The `PlayerInstance` fields involved in media switching: its single
`mediaSource` field and the `config.nextVideo.url` it consults on
`ended`. -/
structure PMedia where
  mediaSource : VSource
  nextVideoUrl : String
  playing : Bool
  deriving DecidableEq, Repr

/-- Method `PlayerInstance.loadVideo(url)`: `this.mediaSource.loadUrl(url)`. -/
def loadVideo (u : String) (p : PMedia) : PMedia :=
  { p with mediaSource := loadUrl u p.mediaSource }

/-- Method `PlayerInstance.handleEnded` restricted to `state.playing` and the
media switch: sets `playing = false` and, when `config.nextVideo.url` is
truthy, calls `loadVideo(nextVideo.url)`. -/
def handleEnded (p : PMedia) : PMedia :=
  let p' := { p with playing := false }
  if p.nextVideoUrl ≠ "" then loadVideo p.nextVideoUrl p' else p'

/-! ## Derived notions used by the theorems -/

/-- Listeners registered for `name` by the `on` (`isOnce = false`) or
`once` (`isOnce = true`) calls of a subscription sequence, oldest first. -/
def subsFor (isOnce : Bool) (name : String) (subs : List Subscription) : List Listener :=
  subs.filterMap (fun sub =>
    if sub.1 = isOnce ∧ sub.2.1 = name then some sub.2.2 else none)

/-- Keys of a listener map. -/
def mapKeys (m : ListenerMap) : List String :=
  m.map Prod.fst

/-- The value `result[key]` produced by one `deepMerge` assignment for a
key present in the target: untouched when absent from the source,
recursively merged when both sides are objects, else the source value. -/
def mergedValue (s : List (String × Value)) (k : String) (tv : Value) : Value :=
  match lookupKey s k with
  | none => tv
  | some sv => if isObjB sv && isObjB tv then deepMerge tv sv else sv

/-! # Theorems

Shared helper lemmas first, then one theorem (with its witness or
counterexample) per specification claim.
-/

theorem mergeEntries_eq (s : List (String × Value)) :
    ∀ t : List (String × Value),
      mergeEntries s t = t.map (fun q => (q.1, mergedValue s q.1 q.2))
  | [] => rfl
  | (k, tv) :: rest => by
      simp only [mergeEntries, List.map_cons, mergedValue, mergeEntries_eq s rest]

theorem lookupKey_map_keyed (f : String → Value → Value) (k : String) :
    ∀ t : List (String × Value),
      lookupKey (t.map (fun q => (q.1, f q.1 q.2))) k = (lookupKey t k).map (f k)
  | [] => rfl
  | (k', v) :: rest => by
      simp only [List.map_cons, lookupKey]
      by_cases h : k' = k
      · subst h; simp
      · simp [h, lookupKey_map_keyed f k rest]

theorem lookupKey_append (k : String) :
    ∀ a b : List (String × Value),
      lookupKey (a ++ b) k =
        (match lookupKey a k with
         | some v => some v
         | none => lookupKey b k)
  | [], _ => rfl
  | (k', v) :: rest, b => by
      simp only [List.cons_append, lookupKey]
      by_cases h : k' = k
      · simp [h]
      · simp [h, lookupKey_append k rest b]

theorem lookupKey_filter_of_none (t : List (String × Value)) (k : String)
    (h : lookupKey t k = none) :
    ∀ s : List (String × Value),
      lookupKey (s.filter (fun q => (lookupKey t q.1).isNone)) k = lookupKey s k
  | [] => rfl
  | (k', v) :: rest => by
      by_cases hk : k' = k
      · subst hk
        simp [List.filter_cons, h, lookupKey]
      · rw [List.filter_cons]
        by_cases hkeep : (lookupKey t k').isNone
        · simp [hkeep, lookupKey, hk, lookupKey_filter_of_none t k h rest]
        · simp [hkeep, lookupKey, hk, lookupKey_filter_of_none t k h rest]

theorem lookupKey_filter_of_some (t : List (String × Value)) (k : String)
    (tv : Value) (h : lookupKey t k = some tv) :
    ∀ s : List (String × Value),
      lookupKey (s.filter (fun q => (lookupKey t q.1).isNone)) k = none
  | [] => rfl
  | (k', v) :: rest => by
      rw [List.filter_cons]
      by_cases hkeep : (lookupKey t k').isNone
      · have hk : k' ≠ k := by
          intro e; subst e; rw [h] at hkeep; simp at hkeep
        simp [hkeep, lookupKey, hk, lookupKey_filter_of_some t k tv h rest]
      · simp [hkeep, lookupKey_filter_of_some t k tv h rest]

theorem lookupKey_deepMerge (t s : List (String × Value)) (k : String) :
    lookupKey (mergeEntries s t ++ s.filter (fun q => (lookupKey t q.1).isNone)) k =
      (match lookupKey t k with
       | some tv => some (mergedValue s k tv)
       | none => lookupKey s k) := by
  rw [lookupKey_append, mergeEntries_eq, lookupKey_map_keyed (fun key v => mergedValue s key v) k]
  cases h : lookupKey t k with
  | some tv => simp
  | none => simp [lookupKey_filter_of_none t k h s]

theorem deepMerge_obj (t s : List (String × Value)) :
    deepMerge (.obj t) (.obj s) =
      .obj (mergeEntries s t ++ s.filter (fun q => (lookupKey t q.1).isNone)) := by
  rfl

theorem deepMerge_prim_right (d : Value) (p : Prim) :
    deepMerge d (.prim p) = .prim p := by
  cases d <;> rfl

theorem deepMerge_prim_left (p : Prim) (u : Value) :
    deepMerge (.prim p) u = u := by
  cases u <;> rfl

theorem absentIn_lookupPath_none :
    ∀ (p : List String) (u : Value), absentIn u p → lookupPath u p = none := by
  intro p
  induction p with
  | nil => intro u h; exact absurd h (by cases u <;> simp [absentIn])
  | cons k rest ih =>
      intro u h
      cases u with
      | prim q => rfl
      | obj fs =>
          rcases h with hnone | ⟨v, hv, _, habs⟩
          · simp [lookupPath, hnone]
          · simp [lookupPath, hv, ih v habs]

theorem lookupPath_deepMerge_override :
    ∀ (p : List String) (d u v : Value),
      lookupPath u p = some v → isObjB v = false →
      lookupPath (deepMerge d u) p = some v := by
  intro p
  induction p with
  | nil =>
      intro d u v hu hv
      simp only [lookupPath, Option.some.injEq] at hu
      subst hu
      cases hobj : u with
      | prim q => rw [deepMerge_prim_right]; rfl
      | obj fs => rw [hobj] at hv; simp [isObjB] at hv
  | cons k rest ih =>
      intro d u v hu hv
      cases u with
      | prim q => exact absurd hu (by simp [lookupPath])
      | obj s =>
          cases hks : lookupKey s k with
          | none => simp [lookupPath, hks] at hu
          | some uv =>
              simp only [lookupPath, hks] at hu
              cases d with
              | prim q => rw [deepMerge_prim_left]; simp [lookupPath, hks, hu]
              | obj t =>
                  rw [deepMerge_obj]
                  simp only [lookupPath, lookupKey_deepMerge]
                  cases hkt : lookupKey t k with
                  | none => simp [hks, hu]
                  | some tv =>
                      simp only [mergedValue, hks]
                      by_cases hobj : isObjB uv = true ∧ isObjB tv = true
                      · simp only [Bool.and_eq_true, hobj, if_true]
                        exact ih tv uv v hu hv
                      · simp only [Bool.and_eq_true, hobj, if_false]
                        exact hu

theorem lookupPath_deepMerge_absent :
    ∀ (p : List String) (d u : Value),
      absentIn u p → lookupPath (deepMerge d u) p = lookupPath d p := by
  intro p
  induction p with
  | nil => intro d u h; exact absurd h (by cases u <;> simp [absentIn])
  | cons k rest ih =>
      intro d u h
      cases u with
      | prim q =>
          exact absurd h (by simp [absentIn])
      | obj s =>
          cases d with
          | prim q =>
              rw [deepMerge_prim_left]
              rw [absentIn_lookupPath_none (k :: rest) (.obj s) h]
              rfl
          | obj t =>
              rw [deepMerge_obj]
              simp only [lookupPath, lookupKey_deepMerge]
              rcases h with hnone | ⟨uv, huv, huvObj, habs⟩
              · cases hkt : lookupKey t k with
                | none => simp [hnone]
                | some tv => simp [mergedValue, hnone]
              · cases hkt : lookupKey t k with
                | none =>
                    simp only [huv]
                    exact absentIn_lookupPath_none rest uv habs
                | some tv =>
                    simp only [mergedValue, huv]
                    by_cases htv : isObjB tv = true
                    · rw [if_pos (by simp [huvObj, htv])]
                      exact ih tv uv habs
                    · rw [if_neg (fun hc => htv ((Bool.and_eq_true _ _).mp hc).2)]
                      rw [absentIn_lookupPath_none rest uv habs]
                      cases tv with
                      | prim q' =>
                          cases rest with
                          | nil => exact absurd habs (by cases uv <;> simp [absentIn])
                          | cons k' rest' => rfl
                      | obj _ => exact absurd rfl htv

/-! ## Claim C1 — `setVolume` and the muted flag -/

/-- C1 is false as stated: with the player muted (`state.muted = true`),
`setVolume(1)` — a positive volume — clears `state.muted`, because
`setVolume` always assigns `state.muted = (volume === 0)`. -/
theorem claim_C1_cex :
    0 < (1 : ℚ) ∧ (VolState.mk 1 true).muted = true ∧
      (setVolume 1 (VolState.mk 1 true)).muted = false :=
  ⟨by norm_num, rfl, by decide⟩

/-- C1 (amended): `setVolume(0)` always results in `state.muted = true`,
but `setVolume(x)` with `x > 0` always results in `state.muted = false` —
a positive-volume `setVolume` unmutes even after an explicit mute, since
`setVolume` assigns `muted = (volume === 0)` unconditionally; `toggleMute`
flips the flag. -/
theorem claim_C1 :
    (∀ s : VolState, (setVolume 0 s).muted = true) ∧
    (∀ (x : ℚ) (s : VolState), 0 < x → (setVolume x s).muted = false) ∧
    (∀ s : VolState, (toggleMute s).muted = !s.muted) := by
  refine ⟨fun s => by simp [setVolume], fun x s hx => ?_, fun s => rfl⟩
  simp only [setVolume, decide_eq_false_iff_not]
  exact ne_of_gt hx

/-- C1 witness: the amended theorem applied at volume `1` on a muted
state, and at volume `0`. -/
theorem claim_C1_witness :
    (setVolume 0 (VolState.mk 1 true)).muted = true ∧
      (setVolume 1 (VolState.mk 1 true)).muted = false :=
  ⟨claim_C1.1 (VolState.mk 1 true),
    claim_C1.2.1 1 (VolState.mk 1 true) (by norm_num)⟩

/-! ## Claim C2 — the playing flag -/

theorem foldl_stepPlaying_eq_lastWriter (trace : List PlayOp) (b : Bool) :
    trace.foldl stepPlaying b =
      (match trace.foldl (fun a op => if writesPlaying op then some op else a) none with
       | some op => writesTrue op
       | none => b) := by
  induction trace using List.reverseRecOn with
  | nil => rfl
  | append_singleton l op ih =>
      rw [List.foldl_append, List.foldl_append, ih]
      cases op with
      | mPlay ok =>
          cases ok <;>
            cases hl : l.foldl (fun a op => if writesPlaying op then some op else a) none <;>
              simp [stepPlaying, writesPlaying, writesTrue]
      | mPause => simp [stepPlaying, writesPlaying, writesTrue]
      | evPlay => simp [stepPlaying, writesPlaying, writesTrue]
      | evPause => simp [stepPlaying, writesPlaying, writesTrue]
      | evEnded => simp [stepPlaying, writesPlaying, writesTrue]

/-- C2 is false as stated: after the trace "MediaSource `play` event,
then a user `pause()` call with no further MediaSource event",
`state.playing` is `false` although the most recent MediaSource event
among play/pause/ended was `play` — because `pause()` writes
`state.playing = false` directly (line 227), not via an event. -/
theorem claim_C2_cex :
    playingAfter [.evPlay, .mPause] = false ∧
      lastMediaEventIsPlay [.evPlay, .mPause] = true := by
  constructor <;> rfl

/-- C2 (amended): `state.playing` is true iff the most recent operation
that writes it was play-like — where the writers are not only the
MediaSource event handlers (`handlePlay`, `handlePause`, `handleEnded`)
but also the public methods themselves: a successful `play()` writes
`true` and `pause()` writes `false` directly, in addition to the
resulting events. -/
theorem claim_C2 :
    ∀ trace : List PlayOp,
      playingAfter trace = true ↔
        ∃ op, lastWriter trace = some op ∧ writesTrue op = true := by
  intro trace
  rw [playingAfter, foldl_stepPlaying_eq_lastWriter trace false, lastWriter]
  cases h : trace.foldl (fun a op => if writesPlaying op then some op else a) none with
  | none => simp
  | some op => simp

/-- C2 witness: the amended theorem applied to the one-event trace
"MediaSource play event": the flag is true and the last writer is that
event. -/
theorem claim_C2_witness :
    playingAfter [PlayOp.evPlay] = true ∧
      ∃ op, lastWriter [PlayOp.evPlay] = some op ∧ writesTrue op = true :=
  ⟨rfl, (claim_C2 [PlayOp.evPlay]).mp rfl⟩

/-! ## Claim C3 — detectMediaType -/

/-- C3 is false as stated: `"dashcam.mp4"` ends in the listed video
extension `.mp4`, yet `detectMediaType` returns `"dash"` — the code also
matches the bare substrings `"hls"` and `"dash"` anywhere in the URL,
before the extension patterns are consulted. -/
theorem claim_C3_cex :
    extMatch videoExts (jsToLower "dashcam.mp4").data = true ∧
      detectMediaType "dashcam.mp4" "" = "dash" ∧ "dash" ≠ "video" := by
  refine ⟨by decide, by decide, by decide⟩

/-- C3 (amended): `detectMediaType` is a total function; an explicit
`type` (in `createMediaSource`) or a truthy `config.priority` takes
precedence; otherwise the checks run in order on the lowercased URL:
containing `.m3u8` or the substring `hls` gives `"hls"`; else containing
`.mpd` or the substring `dash` gives `"dash"`; else an audio extension
(mp3/wav/aac/ogg) gives `"audio"`; else a video extension
(mp4/webm/flv/avi/mov) gives `"video"`; every other URL defaults to
`"video"`.  In particular `a.m3u8 → hls`, `a.mp4 → video`,
`a.mp3 → audio`, `a.mpd → dash`. -/
theorem claim_C3 :
    (∀ url p, p ≠ "" → detectMediaType url p = p) ∧
    (∀ url t p, t ≠ "" → createMediaSourceType url t p = t) ∧
    (detectMediaType "a.m3u8" "" = "hls" ∧
     detectMediaType "a.mp4" "" = "video" ∧
     detectMediaType "a.mp3" "" = "audio" ∧
     detectMediaType "a.mpd" "" = "dash") ∧
    (∀ url,
      ((jsIncludes (jsToLower url) ".m3u8" || jsIncludes (jsToLower url) "hls") = true →
        detectMediaType url "" = "hls") ∧
      ((jsIncludes (jsToLower url) ".m3u8" || jsIncludes (jsToLower url) "hls") = false →
        (jsIncludes (jsToLower url) ".mpd" || jsIncludes (jsToLower url) "dash") = true →
        detectMediaType url "" = "dash") ∧
      ((jsIncludes (jsToLower url) ".m3u8" || jsIncludes (jsToLower url) "hls") = false →
        (jsIncludes (jsToLower url) ".mpd" || jsIncludes (jsToLower url) "dash") = false →
        extMatch audioExts (jsToLower url).data = true →
        detectMediaType url "" = "audio") ∧
      ((jsIncludes (jsToLower url) ".m3u8" || jsIncludes (jsToLower url) "hls") = false →
        (jsIncludes (jsToLower url) ".mpd" || jsIncludes (jsToLower url) "dash") = false →
        extMatch audioExts (jsToLower url).data = false →
        detectMediaType url "" = "video")) := by
  refine ⟨?_, ?_, ⟨by decide, by decide, by decide, by decide⟩, ?_⟩
  · intro url p hp; simp [detectMediaType, hp]
  · intro url t p ht; simp [createMediaSourceType, ht]
  · intro url
    refine ⟨?_, ?_, ?_, ?_⟩
    · intro h1; simp [detectMediaType, h1]
    · intro h1 h2; simp [detectMediaType, h1, h2]
    · intro h1 h2 h3; simp [detectMediaType, h1, h2, h3]
    · intro h1 h2 h3
      by_cases h4 : extMatch videoExts (jsToLower url).data = true
      · simp [detectMediaType, h1, h2, h3, h4]
      · simp only [Bool.not_eq_true] at h4
        simp [detectMediaType, h1, h2, h3, h4]

/-- C3 witness: the amended theorem applied at a priority override, at an
explicit type, and at a URL whose only match is the bare `hls`
substring. -/
theorem claim_C3_witness :
    detectMediaType "a.mp4" "hls" = "hls" ∧
      createMediaSourceType "a.m3u8" "mp4" "" = "mp4" ∧
      detectMediaType "live-hls-stream" "" = "hls" := by
  refine ⟨claim_C3.1 "a.mp4" "hls" (by decide),
    claim_C3.2.1 "a.m3u8" "mp4" "" (by decide),
    (claim_C3.2.2.2 "live-hls-stream").1 (by decide)⟩

/-! ## Claim C4 — configuration validation and init -/

/-- C4 is false as stated: the empty user configuration merges to a
config with the default empty `videoUrl`, which `validateConfig` would
reject — but `UniversalPlayer.init` never calls `validateConfig`, so
initialization proceeds and returns an instance built on the invalid
configuration. -/
theorem claim_C4_cex :
    invalidCfg (mergedValCfg (UserCfg.mk none none none)) ∧
      universalPlayerInit true (UserCfg.mk none none none)
        = .ok (mergedValCfg (UserCfg.mk none none none)) ∧
      validateConfig (mergedValCfg (UserCfg.mk none none none))
        = .error "Configuration validation failed: videoUrl is required" := by
  refine ⟨Or.inl rfl, rfl, rfl⟩

/-- C4 (amended): `ConfigManager.validateConfig`, when invoked, throws a
single validation error listing every violation — the message names
`videoUrl` iff it is missing, `startOffset` iff it is negative, `volume`
iff it lies outside `[0, 1]`, and an error is thrown iff the
configuration is invalid.  But player initialization never invokes it:
`UniversalPlayer.init` fails only on a missing container and otherwise
proceeds (returning the merged config) for every user configuration,
invalid ones included. -/
theorem claim_C4 :
    (∀ c : ValCfg,
      (("videoUrl is required" ∈ validationErrors c) ↔ c.videoUrl = "") ∧
      (("startOffset must be a positive number" ∈ validationErrors c) ↔ c.startOffset < 0) ∧
      (("volume must be between 0 and 1" ∈ validationErrors c) ↔ (c.volume < 0 ∨ 1 < c.volume)) ∧
      (invalidCfg c ↔ ∃ msg, validateConfig c = .error msg)) ∧
    (∀ u : UserCfg,
      universalPlayerInit true u = .ok (mergedValCfg u) ∧
      universalPlayerInit false u = .error "Container not found") := by
  constructor
  · intro c
    have hso : (c.startOffset ≠ 0 ∧ c.startOffset < 0) ↔ c.startOffset < 0 :=
      ⟨fun h => h.2, fun h => ⟨ne_of_lt h, h⟩⟩
    have hvol : (c.volume ≠ 0 ∧ (c.volume < 0 ∨ c.volume > 1)) ↔ (c.volume < 0 ∨ 1 < c.volume) := by
      constructor
      · rintro ⟨_, h | h⟩
        · exact Or.inl h
        · exact Or.inr h
      · rintro (h | h)
        · exact ⟨ne_of_lt h, Or.inl h⟩
        · exact ⟨ne_of_gt (lt_trans zero_lt_one h), Or.inr h⟩
    have hve : validationErrors c =
        (if c.videoUrl = "" then ["videoUrl is required"] else []) ++
        ((if c.startOffset < 0 then ["startOffset must be a positive number"] else []) ++
          (if c.volume < 0 ∨ 1 < c.volume then ["volume must be between 0 and 1"] else [])) := by
      rw [validationErrors, if_congr hso rfl rfl, if_congr hvol rfl rfl, List.append_assoc]
    refine ⟨?_, ?_, ?_, ?_⟩
    · by_cases hU : c.videoUrl = "" <;>
        by_cases hS : c.startOffset < 0 <;>
          by_cases hV : c.volume < 0 ∨ 1 < c.volume <;>
            simp [hve, hU, hS, hV]
    · by_cases hU : c.videoUrl = "" <;>
        by_cases hS : c.startOffset < 0 <;>
          by_cases hV : c.volume < 0 ∨ 1 < c.volume <;>
            simp [hve, hU, hS, hV]
    · by_cases hU : c.videoUrl = "" <;>
        by_cases hS : c.startOffset < 0 <;>
          by_cases hV : c.volume < 0 ∨ 1 < c.volume <;>
            simp [hve, hU, hS, hV]
    · have herr : validationErrors c ≠ [] ↔ invalidCfg c := by
        unfold invalidCfg
        by_cases hU : c.videoUrl = "" <;>
          by_cases hS : c.startOffset < 0 <;>
            by_cases hV : c.volume < 0 ∨ 1 < c.volume <;>
              simp [hve, hU, hS, hV]
      constructor
      · intro h
        refine ⟨"Configuration validation failed: "
            ++ String.intercalate ", " (validationErrors c), ?_⟩
        simp [validateConfig, herr.mpr h]
      · rintro ⟨msg, hmsg⟩
        by_contra hinv
        have hnil : validationErrors c = [] := by
          by_contra hne
          exact hinv (herr.mp hne)
        simp [validateConfig, hnil] at hmsg
  · intro u
    exact ⟨rfl, rfl⟩

/-- C4 witness: the amended theorem applied to the configuration
`{videoUrl: '', startOffset: -1, volume: 2}`, which violates all three
rules — each message is listed and validation throws. -/
theorem claim_C4_witness :
    ("videoUrl is required" ∈ validationErrors (ValCfg.mk "" (-1) 2)) ∧
      ("startOffset must be a positive number" ∈ validationErrors (ValCfg.mk "" (-1) 2)) ∧
      ("volume must be between 0 and 1" ∈ validationErrors (ValCfg.mk "" (-1) 2)) ∧
      (∃ msg, validateConfig (ValCfg.mk "" (-1) 2) = .error msg) :=
  ⟨(claim_C4.1 (ValCfg.mk "" (-1) 2)).1.mpr rfl,
   (claim_C4.1 (ValCfg.mk "" (-1) 2)).2.1.mpr (by norm_num),
   (claim_C4.1 (ValCfg.mk "" (-1) 2)).2.2.1.mpr (Or.inr (by norm_num)),
   (claim_C4.1 (ValCfg.mk "" (-1) 2)).2.2.2.mp (Or.inl rfl)⟩

/-! ## Claim C7 — viewed_threshold_reached at most / exactly once -/

theorem trackProgress_viewed_true (e hs : Bool) (θ ct dur : ℚ) (s : ProgressState)
    (h : s.viewed = true) :
    (trackProgress e hs θ ct dur s).1.viewed = true ∧
      (trackProgress e hs θ ct dur s).2 = false := by
  unfold trackProgress
  split_ifs with h1 h2 <;>
    by_cases h3 : θ ≤ ct / dur ∧ s.viewed = false <;> simp_all

theorem trackProgress_fired (e hs : Bool) (θ ct dur : ℚ) (s : ProgressState)
    (h : (trackProgress e hs θ ct dur s).2 = true) :
    (trackProgress e hs θ ct dur s).1.viewed = true := by
  unfold trackProgress at h ⊢
  split_ifs at h ⊢ with h1 h2
  by_cases h3 : θ ≤ ct / dur ∧ s.viewed = false <;> simp_all

theorem trackProgress_not_fired (e hs : Bool) (θ ct dur : ℚ) (s : ProgressState)
    (h : (trackProgress e hs θ ct dur s).2 = false) :
    (trackProgress e hs θ ct dur s).1.viewed = s.viewed := by
  unfold trackProgress at h ⊢
  split_ifs at h ⊢ with h1 h2
  · rfl
  · rfl
  · simp only [ge_iff_le, Bool.not_eq_true'] at h ⊢
    by_cases h3 : θ ≤ ct / dur ∧ s.viewed = false
    · rw [if_pos h3] at h
      simp at h
    · rw [if_neg h3]

theorem trackProgress_fires (θ ct dur : ℚ) (s : ProgressState)
    (hv : s.viewed = false) (hdur : dur ≠ 0) (hθ : θ ≤ ct / dur) :
    (trackProgress true true θ ct dur s).2 = true := by
  unfold trackProgress
  split_ifs with h1 h2 <;>
    by_cases h3 : θ ≤ ct / dur ∧ s.viewed = false <;> simp_all

theorem trackProgress_no_fire (θ ct dur : ℚ) (s : ProgressState)
    (hc : ¬(dur ≠ 0 ∧ θ ≤ ct / dur)) :
    (trackProgress true true θ ct dur s).2 = false := by
  unfold trackProgress
  split_ifs with h1 h2
  · rfl
  · rfl
  · simp only [Bool.not_true, Bool.false_or, decide_eq_true_eq] at h1
    have hθ : ¬(θ ≤ ct / dur) := fun hle => hc ⟨h1, hle⟩
    simp only [ge_iff_le, Bool.not_eq_true']
    rw [if_neg (fun h3 => hθ h3.1)]

theorem runProgress_viewed_true (e hs : Bool) (θ : ℚ) :
    ∀ (calls : List (ℚ × ℚ)) (s : ProgressState), s.viewed = true →
      (runProgress e hs θ calls s).2 = 0 := by
  intro calls
  induction calls with
  | nil => intro s _; rfl
  | cons c rest ih =>
      intro s h
      obtain ⟨ct, dur⟩ := c
      obtain ⟨hv', hf⟩ := trackProgress_viewed_true e hs θ ct dur s h
      simp only [runProgress]
      rcases htp : trackProgress e hs θ ct dur s with ⟨s', fired⟩
      rw [htp] at hv' hf
      simp only at hv' hf
      subst hf
      simp [ih s' hv']

theorem runProgress_at_most_once (e hs : Bool) (θ : ℚ) :
    ∀ (calls : List (ℚ × ℚ)) (s : ProgressState), s.viewed = false →
      (runProgress e hs θ calls s).2 ≤ 1 := by
  intro calls
  induction calls with
  | nil => intro s _; exact Nat.zero_le 1
  | cons c rest ih =>
      intro s h
      obtain ⟨ct, dur⟩ := c
      simp only [runProgress]
      rcases htp : trackProgress e hs θ ct dur s with ⟨s', fired⟩
      cases fired with
      | true =>
          have hv' : s'.viewed = true := by
            have := trackProgress_fired e hs θ ct dur s (by rw [htp])
            rwa [htp] at this
          simp [runProgress_viewed_true e hs θ rest s' hv']
      | false =>
          have hv' : s'.viewed = false := by
            have := trackProgress_not_fired e hs θ ct dur s (by rw [htp])
            rw [htp] at this
            simpa [h] using this
          simpa using ih s' hv'

theorem runProgress_fires_once (θ : ℚ) :
    ∀ (calls : List (ℚ × ℚ)) (s : ProgressState), s.viewed = false →
      (∃ c ∈ calls, c.2 ≠ 0 ∧ θ ≤ c.1 / c.2) →
      (runProgress true true θ calls s).2 = 1 := by
  intro calls
  induction calls with
  | nil => rintro s _ ⟨c, hc, _⟩; exact absurd hc (List.not_mem_nil c)
  | cons c rest ih =>
      rintro s h ⟨w, hw, hwprop⟩
      obtain ⟨ct, dur⟩ := c
      simp only [runProgress]
      by_cases hc : dur ≠ 0 ∧ θ ≤ ct / dur
      · have hf : (trackProgress true true θ ct dur s).2 = true :=
          trackProgress_fires θ ct dur s h hc.1 hc.2
        have hv' : (trackProgress true true θ ct dur s).1.viewed = true :=
          trackProgress_fired true true θ ct dur s hf
        rcases htp : trackProgress true true θ ct dur s with ⟨s', fired⟩
        rw [htp] at hf hv'
        simp only at hf hv'
        subst hf
        simp [runProgress_viewed_true true true θ rest s' hv']
      · have hf : (trackProgress true true θ ct dur s).2 = false :=
          trackProgress_no_fire θ ct dur s hc
        have hv' : (trackProgress true true θ ct dur s).1.viewed = false := by
          have := trackProgress_not_fired true true θ ct dur s hf
          rw [h] at this
          exact this
        rcases htp : trackProgress true true θ ct dur s with ⟨s', fired⟩
        rw [htp] at hf hv'
        simp only at hf hv'
        subst hf
        have hwrest : w ∈ rest := by
          rcases List.mem_cons.mp hw with heq | hmem
          · subst heq; exact absurd hwprop hc
          · exact hmem
        simpa using ih s' hv' ⟨w, hwrest, hwprop⟩

/-- C7: for a session's `trackProgress` state (fresh per `init`), the
`viewed_threshold_reached` event is tracked at most once over any
sequence of calls; and with analytics enabled and the session present,
it is tracked exactly once as soon as some call reaches the configured
threshold fraction `currentTime / duration` — however often the
progress later drops below and re-crosses it. -/
theorem claim_C7 :
    (∀ (enabled hasSession : Bool) (θ : ℚ) (calls : List (ℚ × ℚ)),
      (runProgress enabled hasSession θ calls freshProgress).2 ≤ 1) ∧
    (∀ (θ : ℚ) (calls : List (ℚ × ℚ)),
      (∃ c ∈ calls, c.2 ≠ 0 ∧ θ ≤ c.1 / c.2) →
      (runProgress true true θ calls freshProgress).2 = 1) :=
  ⟨fun e hs θ calls => runProgress_at_most_once e hs θ calls freshProgress rfl,
   fun θ calls h => runProgress_fires_once θ calls freshProgress rfl h⟩

/-- C7 witness: with threshold `0.8`, the call sequence "reach 90%,
seek back to 10%, reach 90% again" tracks the event exactly once. -/
theorem claim_C7_witness :
    (∃ c ∈ [((9 : ℚ), (10 : ℚ)), (1, 10), (9, 10)], c.2 ≠ 0 ∧ qPoint8 ≤ c.1 / c.2) ∧
      (runProgress true true qPoint8 [(9, 10), (1, 10), (9, 10)] freshProgress).2 = 1 := by
  have hmem : ∃ c ∈ [((9 : ℚ), (10 : ℚ)), (1, 10), (9, 10)], c.2 ≠ 0 ∧ qPoint8 ≤ c.1 / c.2 := by
    refine ⟨(9, 10), by simp, by norm_num, ?_⟩
    rw [qPoint8_eq]
    norm_num
  exact ⟨hmem, claim_C7.2 qPoint8 [(9, 10), (1, 10), (9, 10)] hmem⟩

/-! ## Claim C9 — EventManager.emit -/

theorem getListeners_addListener :
    ∀ (m : ListenerMap) (n : String) (l : Listener) (name : String),
      getListeners (addListener m n l) name =
        if n = name then some ((getListeners m name).getD [] ++ [l])
        else getListeners m name := by
  intro m
  induction m with
  | nil =>
      intro n l name
      simp only [addListener, getListeners]
      by_cases h : n = name <;> simp [h]
  | cons kv rest ih =>
      intro n l name
      obtain ⟨k, ls⟩ := kv
      simp only [addListener]
      by_cases hkn : k = n
      · subst hkn
        simp only [if_pos rfl, getListeners]
        by_cases hname : k = name <;> simp [hname]
      · rw [if_neg hkn]
        simp only [getListeners]
        by_cases hkname : k = name
        · subst hkname
          have : ¬ n = k := fun h => hkn h.symm
          simp [this]
        · simp only [if_neg hkname, ih n l name]

theorem applySubs_events :
    ∀ (subs : List Subscription) (st : EvState) (name : String),
      (getListeners (applySubs subs st).events name).getD [] =
        (getListeners st.events name).getD [] ++ subsFor false name subs := by
  intro subs
  induction subs with
  | nil => intro st name; simp [applySubs, subsFor]
  | cons sub rest ih =>
      intro st name
      obtain ⟨isOnce, n, l⟩ := sub
      cases isOnce with
      | true =>
          rw [show applySubs ((true, n, l) :: rest) st = applySubs rest (evOnce n l st) from rfl,
            show subsFor false name ((true, n, l) :: rest) = subsFor false name rest from by
              simp [subsFor]]
          simpa [evOnce] using ih (evOnce n l st) name
      | false =>
          rw [show applySubs ((false, n, l) :: rest) st = applySubs rest (evOn n l st) from rfl,
            ih (evOn n l st) name]
          simp only [evOn, getListeners_addListener]
          by_cases hn : n = name
          · rw [if_pos hn,
              show subsFor false name ((false, n, l) :: rest) = l :: subsFor false name rest from by
                simp [subsFor, hn]]
            simp
          · rw [if_neg hn,
              show subsFor false name ((false, n, l) :: rest) = subsFor false name rest from by
                simp [subsFor, hn]]

theorem applySubs_onceEvents :
    ∀ (subs : List Subscription) (st : EvState) (name : String),
      (getListeners (applySubs subs st).onceEvents name).getD [] =
        (getListeners st.onceEvents name).getD [] ++ subsFor true name subs := by
  intro subs
  induction subs with
  | nil => intro st name; simp [applySubs, subsFor]
  | cons sub rest ih =>
      intro st name
      obtain ⟨isOnce, n, l⟩ := sub
      cases isOnce with
      | false =>
          rw [show applySubs ((false, n, l) :: rest) st = applySubs rest (evOn n l st) from rfl,
            show subsFor true name ((false, n, l) :: rest) = subsFor true name rest from by
              simp [subsFor]]
          simpa [evOn] using ih (evOn n l st) name
      | true =>
          rw [show applySubs ((true, n, l) :: rest) st = applySubs rest (evOnce n l st) from rfl,
            ih (evOnce n l st) name]
          simp only [evOnce, getListeners_addListener]
          by_cases hn : n = name
          · rw [if_pos hn,
              show subsFor true name ((true, n, l) :: rest) = l :: subsFor true name rest from by
                simp [subsFor, hn]]
            simp
          · rw [if_neg hn,
              show subsFor true name ((true, n, l) :: rest) = subsFor true name rest from by
                simp [subsFor, hn]]

theorem mapKeys_addListener :
    ∀ (m : ListenerMap) (n : String) (l : Listener),
      mapKeys (addListener m n l) =
        if n ∈ mapKeys m then mapKeys m else mapKeys m ++ [n] := by
  intro m
  induction m with
  | nil => intro n l; simp [addListener, mapKeys]
  | cons kv rest ih =>
      intro n l
      obtain ⟨k, ls⟩ := kv
      simp only [addListener]
      by_cases hkn : k = n
      · subst hkn
        simp [mapKeys]
      · rw [if_neg hkn]
        simp only [mapKeys, List.map_cons] at ih ⊢
        by_cases hn : n ∈ rest.map Prod.fst
        · rw [ih n l, if_pos hn, if_pos (List.mem_cons_of_mem k hn)]
        · have hnot : n ∉ k :: rest.map Prod.fst := by
            intro h
            rcases List.mem_cons.mp h with heq | hmem
            · exact hkn heq.symm
            · exact hn hmem
          rw [ih n l, if_neg hn, if_neg hnot, List.cons_append]

theorem nodup_addListener (m : ListenerMap) (n : String) (l : Listener)
    (h : (mapKeys m).Nodup) : (mapKeys (addListener m n l)).Nodup := by
  rw [mapKeys_addListener]
  by_cases hn : n ∈ mapKeys m
  · rwa [if_pos hn]
  · rw [if_neg hn, ← List.concat_eq_append]
    exact List.Nodup.concat hn h

theorem applySubs_nodup :
    ∀ (subs : List Subscription) (st : EvState),
      (mapKeys st.events).Nodup → (mapKeys st.onceEvents).Nodup →
      (mapKeys (applySubs subs st).events).Nodup ∧
        (mapKeys (applySubs subs st).onceEvents).Nodup := by
  intro subs
  induction subs with
  | nil => intro st h1 h2; exact ⟨h1, h2⟩
  | cons sub rest ih =>
      intro st h1 h2
      obtain ⟨isOnce, n, l⟩ := sub
      cases isOnce with
      | true => exact ih _ h1 (nodup_addListener st.onceEvents n l h2)
      | false => exact ih _ (nodup_addListener st.events n l h1) h2

theorem getListeners_not_mem (name : String) :
    ∀ m : ListenerMap, name ∉ mapKeys m → getListeners m name = none := by
  intro m
  induction m with
  | nil => intro _; rfl
  | cons kv rest ih =>
      intro h
      obtain ⟨k, ls⟩ := kv
      simp only [mapKeys, List.map_cons, List.mem_cons, not_or] at h
      simp only [getListeners]
      rw [if_neg (fun e => h.1 e.symm)]
      exact ih (by simpa [mapKeys] using h.2)

theorem getListeners_deleteKey_self (name : String) :
    ∀ m : ListenerMap, (mapKeys m).Nodup →
      getListeners (deleteKey m name) name = none := by
  intro m
  induction m with
  | nil => intro _; rfl
  | cons kv rest ih =>
      intro h
      obtain ⟨k, ls⟩ := kv
      simp only [mapKeys, List.map_cons, List.nodup_cons] at h
      simp only [deleteKey]
      by_cases hk : k = name
      · rw [if_pos hk]
        subst hk
        exact getListeners_not_mem k rest (by simpa [mapKeys] using h.1)
      · rw [if_neg hk]
        simp only [getListeners, if_neg hk]
        exact ih (by simpa [mapKeys] using h.2)

/-- C9: for a state built from any sequence of `on`/`once` subscriptions,
`emit` invokes every subscribed listener exactly once — the `on`
listeners in subscription order, then the `once` listeners in
subscription order — with each callback's exception caught inside `emit`
(the invocation log is the same whatever the throw flags, and every
listener after a throwing one is still invoked; `emit` itself is total);
the `on` table is untouched and the `once` listeners for that event are
removed, so a second `emit` invokes only the `on` listeners. -/
theorem claim_C9 :
    ∀ (subs : List Subscription) (name : String),
      (evEmit name (applySubs subs evEmpty)).1 =
        (subsFor false name subs).map (fun l => (l.id, l.throws)) ++
          (subsFor true name subs).map (fun l => (l.id, l.throws)) ∧
      (evEmit name (applySubs subs evEmpty)).2.events = (applySubs subs evEmpty).events ∧
      (evEmit name ((evEmit name (applySubs subs evEmpty)).2)).1 =
        (subsFor false name subs).map (fun l => (l.id, l.throws)) := by
  intro subs name
  have he : (getListeners (applySubs subs evEmpty).events name).getD [] =
      subsFor false name subs := by
    have := applySubs_events subs evEmpty name
    simpa [evEmpty, getListeners] using this
  have ho : (getListeners (applySubs subs evEmpty).onceEvents name).getD [] =
      subsFor true name subs := by
    have := applySubs_onceEvents subs evEmpty name
    simpa [evEmpty, getListeners] using this
  have hnodup : (mapKeys (applySubs subs evEmpty).onceEvents).Nodup :=
    (applySubs_nodup subs evEmpty (by simp [evEmpty, mapKeys]) (by simp [evEmpty, mapKeys])).2
  refine ⟨?_, rfl, ?_⟩
  · simp only [evEmit, he, ho]
  · simp only [evEmit, he, ho]
    rw [getListeners_deleteKey_self name (applySubs subs evEmpty).onceEvents hnodup]
    simp

/-- C9 witness: the emit theorem applied to the subscriptions
"on(e, #1 throwing), once(e, #2), on(e, #3)": one emit invokes 1, 3,
then 2 — the throwing first listener stops nothing — and a second emit
invokes only 1 and 3. -/
theorem claim_C9_witness :
    (evEmit "e" (applySubs
        [(false, "e", Listener.mk 1 true), (true, "e", Listener.mk 2 false),
          (false, "e", Listener.mk 3 false)] evEmpty)).1
      = [(1, true), (3, false), (2, false)] ∧
    (evEmit "e" ((evEmit "e" (applySubs
        [(false, "e", Listener.mk 1 true), (true, "e", Listener.mk 2 false),
          (false, "e", Listener.mk 3 false)] evEmpty)).2)).1
      = [(1, true), (3, false)] :=
  ⟨((claim_C9
      [(false, "e", Listener.mk 1 true), (true, "e", Listener.mk 2 false),
        (false, "e", Listener.mk 3 false)] "e").1).trans rfl,
   ((claim_C9
      [(false, "e", Listener.mk 1 true), (true, "e", Listener.mk 2 false),
        (false, "e", Listener.mk 3 false)] "e").2.2).trans rfl⟩

/-! ## Claim C5 — createConfig / deepMerge -/

/-- C5: every key path that the user configuration binds to a leaf
(non-object) value reads back from `createConfig(user)` as that user
value; every key path the user configuration omits (walking the path in
`user`, some key is missing from the object reached) reads back as it
does from the defaults; and merging the default configuration with
itself yields the default configuration (idempotence at the defaults). -/
theorem claim_C5 :
    (∀ (user : Value) (p : List String) (v : Value),
        lookupPath user p = some v → isObjB v = false →
        lookupPath (createConfig user) p = some v) ∧
    (∀ (user : Value) (p : List String),
        absentIn user p →
        lookupPath (createConfig user) p = lookupPath defaultConfig p) ∧
    deepMerge defaultConfig defaultConfig = defaultConfig :=
  ⟨fun user p v hu hv => lookupPath_deepMerge_override p defaultConfig user v hu hv,
   fun user p h => lookupPath_deepMerge_absent p defaultConfig user h,
   rfl⟩

/-- C5 witness: a user config `{volume: 0.5}`; the bound path `volume`
overrides the default, and the omitted path `autoplay` keeps the default
value `false`. -/
theorem claim_C5_witness :
    lookupPath (createConfig (.obj [("volume", vnum qPoint5)])) ["volume"]
        = some (vnum qPoint5) ∧
      lookupPath (createConfig (.obj [("volume", vnum qPoint5)])) ["autoplay"]
        = lookupPath defaultConfig ["autoplay"] ∧
      lookupPath defaultConfig ["autoplay"] = some (vbool false) :=
  ⟨claim_C5.1 (.obj [("volume", vnum qPoint5)]) ["volume"] (vnum qPoint5) rfl rfl,
   claim_C5.2.1 (.obj [("volume", vnum qPoint5)]) ["autoplay"] (Or.inl rfl),
   rfl⟩

/-! ## Claim C6 — analytics send-failure handling -/

/-- C6 is false as stated: with a configured tracking URL and a queue of
eleven events, a flush cycle whose `fetch` resolves with an HTTP error
status (`!response.ok`, e.g. 500) drops the spliced batch of ten — the
queue afterwards holds only the eleventh event, so the first ten tracked
events are lost; only a rejected `fetch` reaches the requeueing `catch`. -/
theorem claim_C6_cex :
    processBatch "https://track.example" (SendOutcome.httpErr 500)
        [0, 1, 2, 3, 4, 5, 6, 7, 8, 9, 10] = ([10] : List ℕ) ∧
      (0 : ℕ) ∉ processBatch "https://track.example" (SendOutcome.httpErr 500)
        [0, 1, 2, 3, 4, 5, 6, 7, 8, 9, 10] := by
  constructor
  · rfl
  · decide

/-- C6 (amended): with a configured tracking URL, a flush cycle whose
`fetch` rejects (network error) pushes the failed batch back to the
front, restoring the queue exactly — unbounded retry, nothing surfaced;
but a cycle whose `fetch` resolves with a non-ok HTTP status only logs a
warning and leaves the batch removed, so those events are dropped. -/
theorem claim_C6 :
    ∀ (α : Type) (url : String) (q : List α), url ≠ "" →
      processBatch url SendOutcome.netErr q = q ∧
      (q ≠ [] → ∀ status : Nat,
        processBatch url (SendOutcome.httpErr status) q = q.drop 10) := by
  intro α url q hurl
  constructor
  · by_cases hq : q.isEmpty
    · simp [processBatch, hq]
    · simp [processBatch, hq, sendEvents, hurl, List.take_append_drop]
  · intro hq status
    have hq' : q.isEmpty = false := by
      cases q with
      | nil => exact absurd rfl hq
      | cons a t => rfl
    simp [processBatch, hq', sendEvents, hurl]

/-- C6 witness: the amended theorem applied to an eleven-event queue —
the network-error cycle restores the queue, the HTTP-500 cycle leaves
only the unspliced tail. -/
theorem claim_C6_witness :
    processBatch "https://track.example" SendOutcome.netErr
        ([0, 1, 2, 3, 4, 5, 6, 7, 8, 9, 10] : List ℕ)
        = [0, 1, 2, 3, 4, 5, 6, 7, 8, 9, 10] ∧
      processBatch "https://track.example" (SendOutcome.httpErr 500)
        ([0, 1, 2, 3, 4, 5, 6, 7, 8, 9, 10] : List ℕ)
        = List.drop 10 [0, 1, 2, 3, 4, 5, 6, 7, 8, 9, 10] :=
  ⟨(claim_C6 ℕ "https://track.example" [0, 1, 2, 3, 4, 5, 6, 7, 8, 9, 10]
      (by decide)).1,
   (claim_C6 ℕ "https://track.example" [0, 1, 2, 3, 4, 5, 6, 7, 8, 9, 10]
      (by decide)).2 (by decide) 500⟩

/-! ## Claim C8 — media switching keeps the MediaSource -/

/-- C8 is false as stated: `loadVideo` on a concrete instance keeps the
very same `VideoSource` object (allocation id `7` unchanged), still
loaded and still holding its video element — nothing is destroyed and no
new MediaSource is created; only `url` and the element's `src` change. -/
theorem claim_C8_cex :
    (loadVideo "next.mp4"
        (PMedia.mk (VSource.mk 7 "first.mp4" (some (VElem.mk "first.mp4" 1 false)) true)
          "" true)).mediaSource.allocId = 7 ∧
      (loadVideo "next.mp4"
        (PMedia.mk (VSource.mk 7 "first.mp4" (some (VElem.mk "first.mp4" 1 false)) true)
          "" true)).mediaSource.isLoaded = true ∧
      (loadVideo "next.mp4"
        (PMedia.mk (VSource.mk 7 "first.mp4" (some (VElem.mk "first.mp4" 1 false)) true)
          "" true)).mediaSource.videoElement ≠ none := by
  refine ⟨rfl, rfl, ?_⟩
  simp [loadVideo, loadUrl]

/-- C8 (amended): a `PlayerInstance` holds exactly one `mediaSource`
field; `loadVideo(url)` (and the automatic next-video load performed by
`handleEnded` when `nextVideo.url` is set) reuses that same MediaSource
instance — same allocation id, same loaded flag — merely updating its
`url` and, when a video element is attached, the element's `src`. -/
theorem claim_C8 :
    ∀ (u : String) (p : PMedia),
      ((loadVideo u p).mediaSource.allocId = p.mediaSource.allocId ∧
       (loadVideo u p).mediaSource.url = u ∧
       (loadVideo u p).mediaSource.isLoaded = p.mediaSource.isLoaded ∧
       (loadVideo u p).mediaSource.videoElement
         = p.mediaSource.videoElement.map (fun e => { e with src := u })) ∧
      ((handleEnded p).mediaSource.allocId = p.mediaSource.allocId ∧
       (handleEnded p).playing = false ∧
       (p.nextVideoUrl ≠ "" → (handleEnded p).mediaSource.url = p.nextVideoUrl) ∧
       (p.nextVideoUrl = "" → (handleEnded p).mediaSource = p.mediaSource)) := by
  intro u p
  refine ⟨⟨rfl, rfl, rfl, rfl⟩, ?_, ?_, ?_, ?_⟩
  · by_cases h : p.nextVideoUrl = "" <;> simp [handleEnded, h, loadVideo, loadUrl]
  · by_cases h : p.nextVideoUrl = "" <;> simp [handleEnded, h, loadVideo, loadUrl]
  · intro h; simp [handleEnded, h, loadVideo, loadUrl]
  · intro h; simp [handleEnded, h]

/-- C8 witness: the amended theorem applied to a concrete instance whose
`nextVideo.url` is `"n.mp4"`. -/
theorem claim_C8_witness :
    (handleEnded
        (PMedia.mk (VSource.mk 3 "a.mp4" none false) "n.mp4" true)).mediaSource.url
      = "n.mp4" :=
  (claim_C8 "x"
      (PMedia.mk (VSource.mk 3 "a.mp4" none false) "n.mp4" true)).2.2.2.1 (by decide)

/-! ## Claim C10 — VideoSource.setVolume clamps -/

/-- C10: `VideoSource.setVolume(v)` never throws: without a video element
it is a no-op, and with one it assigns the clamped value
`max(0, min(1, v))`, which always lies in `[0, 1]`, so the media
element's out-of-range `IndexSizeError` branch is unreachable. -/
theorem claim_C10 :
    ∀ (v : ℚ) (s : VSource),
      (s.videoElement = none → vsSetVolume v s = .ok s) ∧
      (∀ e, s.videoElement = some e →
        vsSetVolume v s
          = .ok { s with videoElement := some { e with volume := clampVolume v } }) ∧
      (∃ r, vsSetVolume v s = .ok r) ∧
      clampVolume v = max 0 (min 1 v) ∧
      0 ≤ clampVolume v ∧ clampVolume v ≤ 1 := by
  intro v s
  have h0 : 0 ≤ clampVolume v := le_max_left 0 (min 1 v)
  have h1 : clampVolume v ≤ 1 := max_le (by norm_num) (min_le_left 1 v)
  have helem : ∀ e, elemSetVolume (clampVolume v) e = .ok { e with volume := clampVolume v } := by
    intro e
    simp [elemSetVolume, h0, h1]
  refine ⟨?_, ?_, ?_, rfl, h0, h1⟩
  · intro h; simp [vsSetVolume, h]
  · intro e h; simp [vsSetVolume, h, helem e, Except.map]
  · cases h : s.videoElement with
    | none => exact ⟨s, by simp [vsSetVolume, h]⟩
    | some e =>
        exact ⟨{ s with videoElement := some { e with volume := clampVolume v } },
          by simp [vsSetVolume, h, helem e, Except.map]⟩

/-- C10 witness: the amended theorem applied with the out-of-range volume
`2` to a source holding an element — the stored volume is the clamp. -/
theorem claim_C10_witness :
    vsSetVolume 2 (VSource.mk 1 "a.mp4" (some (VElem.mk "a.mp4" 1 false)) true)
      = .ok (VSource.mk 1 "a.mp4" (some (VElem.mk "a.mp4" (clampVolume 2) false)) true) :=
  (claim_C10 2 (VSource.mk 1 "a.mp4" (some (VElem.mk "a.mp4" 1 false)) true)).2.1
    (VElem.mk "a.mp4" 1 false) rfl

end Player
